import Mathlib

/-!
Verification of the QueryCraft natural-language-to-SQL core.

The development shallowly embeds the program's core functions:

* `SQLGenerator._validate_sql_safety` and `dangerous_patterns`
  (src/app/models/sql_generator.py) as `validate_sql_safety`, with the four
  regular expressions realised by hand-written scanners over `List Char`;
* `SQLGenerator._rule_based_sql` / `_extract_department` / `_extract_sql`
  as `rule_based_sql`, `extract_department`, `extract_sql`;
* `SQLGenerator.generate_sql` as `generate_sql`, with the learned model's
  output abstracted as an `Option String` (none = model unavailable);
* `DatabaseConnection.execute_query` (src/app/database/connection.py) as
  `execute_query` over an abstract store with fallible read/write;
* `DatabaseConnection.save_query_history` / `get_query_history` as
  `save_query_history` / `get_query_history` over an explicit table state;
* `NLToSQLApp.process_query` (src/app/main.py) as `process_query`;
* `SchemaManager._refresh_schema` (src/app/models/schema_manager.py) as the
  sequence of states `refreshSchemaStates` that the in-place rebuild of
  `self.schema` publishes to a concurrent reader.

Python strings are modelled as `String`/`List Char`; `str.upper`, `str.lower`,
`str.strip` and `str.split` are modelled by `Char.toUpper`, `Char.toLower`,
`pyStrip` and `takeWhile`/`dropWhile`, which agree with Python on the ASCII
texts the program manipulates.
-/

namespace QueryCraft

/-- A regex word character (`\w`): letter, digit or underscore. -/
def isWordChar (c : Char) : Bool := c.isAlphanum || c == '_'

/-- Python `needle in hay` substring test over character lists. -/
def hasInfix (needle : List Char) : List Char → Bool
  | [] => needle.isEmpty
  | c :: rest => needle.isPrefixOf (c :: rest) || hasInfix needle rest

/-- Python `str.strip()`: drop leading and trailing whitespace. -/
def pyStrip (s : List Char) : List Char :=
  ((s.dropWhile Char.isWhitespace).reverse.dropWhile Char.isWhitespace).reverse

/-- Python `str.title()` for the single lowercase words it is applied to:
uppercase the first character. -/
def pyTitle (s : String) : String :=
  match s.toList with
  | [] => ""
  | c :: rest => String.mk (c.toUpper :: rest)

/-! ## SafetyValidator — `SQLGenerator._validate_sql_safety`

`dangerous_patterns` (src/app/models/sql_generator.py lines 22-27) holds four
regexes, checked in order against the upper-cased query.  Each is realised by
a scanner with exactly the regex's semantics (`.` does not match a newline). -/

/-- The keyword alternatives of the first dangerous pattern
`\b(DROP|DELETE|UPDATE|INSERT|ALTER|TRUNCATE|CREATE|EXEC)\b`. -/
def denyKeywords : List String :=
  ["DROP", "DELETE", "UPDATE", "INSERT", "ALTER", "TRUNCATE", "CREATE", "EXEC"]

/-- `w` occurs in `s` at position `i` with a word boundary on each side: the
character before (when any) and the character after (when any) are not word
characters; out-of-range neighbours default to the non-word blank. -/
def wordAt (s w : List Char) (i : Nat) : Bool :=
  w.isPrefixOf (s.drop i)
    && (i = 0 || !isWordChar (s.getD (i - 1) ' '))
    && !isWordChar (s.getD (i + w.length) ' ')

/-- `re.search` for `\b(DROP|...|EXEC)\b`: some keyword occurs as a whole
word somewhere in `s`. -/
def hasDangerKeyword (s : List Char) : Bool :=
  (List.range (s.length + 1)).any fun i =>
    denyKeywords.any fun w => wordAt s w.toList i

/-- A `;` occurs before any newline (the regex `.` does not cross lines). -/
def semiBeforeNewline : List Char → Bool
  | [] => false
  | c :: rest =>
    if c = ';' then true
    else if c = '\n' then false
    else semiBeforeNewline rest

/-- `re.search` for `;.*;`: two `;` with no newline between them. -/
def hasStacked : List Char → Bool
  | [] => false
  | c :: rest => (c = ';' && semiBeforeNewline rest) || hasStacked rest

/-- A `*/` occurs before any newline. -/
def blockCloseBeforeNewline : List Char → Bool
  | [] => false
  | c :: rest =>
    if c = '*' ∧ rest.head? = some '/' then true
    else if c = '\n' then false
    else blockCloseBeforeNewline rest

/-- `re.search` for `/\*.*\*/`: `/*` then `*/` with no newline between
(an occurrence of `/*` cannot begin at the consumed `*`, so the scan resumes
one character on). -/
def hasBlockComment : List Char → Bool
  | [] => false
  | c :: rest =>
    if c = '/' ∧ rest.head? = some '*' then
      blockCloseBeforeNewline (rest.drop 1) || hasBlockComment rest
    else hasBlockComment rest

/-- `SQLGenerator._validate_sql_safety` (sql_generator.py lines 145-157):
with checks disabled everything passes; otherwise the four
`dangerous_patterns` are tried in order against the upper-cased query and the
first match is reported, else `(True, "Query is safe")`. -/
def validate_sql_safety (enable_safety_checks : Bool) (sql_query : String) :
    Bool × String :=
  if !enable_safety_checks then (true, "Safety checks disabled")
  else
    let sql_upper := sql_query.toList.map Char.toUpper
    if hasDangerKeyword sql_upper then
      (false, "Dangerous SQL pattern detected: \\b(DROP|DELETE|UPDATE|INSERT|ALTER|TRUNCATE|CREATE|EXEC)\\b")
    else if hasStacked sql_upper then
      (false, "Dangerous SQL pattern detected: ;.*;")
    else if hasInfix ['-', '-'] sql_upper then
      (false, "Dangerous SQL pattern detected: --")
    else if hasBlockComment sql_upper then
      (false, "Dangerous SQL pattern detected: /\\*.*\\*/")
    else (true, "Query is safe")

/-- Specification-side reading of "contains `w` as a whole word": `s` splits
as `pre ++ w ++ post` where the character adjacent to `w` on either side,
when present, is not a word character. -/
def ContainsWholeWord (s w : List Char) : Prop :=
  ∃ pre post : List Char,
    s = pre ++ w ++ post ∧
    (pre.getLast?.all fun c => !isWordChar c) = true ∧
    (post.head?.all fun c => !isWordChar c) = true

/-! ## Rule-based translator — `SQLGenerator._rule_based_sql` -/

/-- The fixed department vocabulary of `_extract_department` (line 123). -/
def departments : List String := ["it", "marketing", "sales", "finance", "hr"]

/-- `SQLGenerator._extract_department` (lines 121-127): the first vocabulary
entry occurring as a substring of the (lower-cased) query, title-cased;
`""` if none matches. -/
def extract_department (query : List Char) : String :=
  match departments.find? (fun d => hasInfix d.toList query) with
  | some d => pyTitle d
  | none => ""

/-- `SQLGenerator._rule_based_sql` (lines 95-119): deterministic keyword
dispatch over the lower-cased request, checks in source order. -/
def rule_based_sql (query : String) : String :=
  let query_lower := query.toList.map Char.toLower
  if hasInfix "count".toList query_lower && hasInfix "department".toList query_lower then
    "SELECT department, COUNT(*) as employee_count FROM employees GROUP BY department;"
  else if hasInfix "average".toList query_lower && hasInfix "salary".toList query_lower then
    if hasInfix "department".toList query_lower then
      "SELECT department, AVG(salary) as avg_salary FROM employees GROUP BY department;"
    else
      "SELECT AVG(salary) as average_salary FROM employees;"
  else if hasInfix "highest".toList query_lower || hasInfix "top".toList query_lower then
    "SELECT * FROM employees ORDER BY salary DESC LIMIT 5;"
  else if hasInfix "lowest".toList query_lower then
    "SELECT * FROM employees ORDER BY salary ASC LIMIT 5;"
  else if hasInfix "department".toList query_lower then
    let dept := extract_department query_lower
    if dept ≠ "" then
      "SELECT * FROM employees WHERE department = '" ++ dept ++ "';"
    else
      "SELECT DISTINCT department FROM employees;"
  else if hasInfix "city".toList query_lower || hasInfix "location".toList query_lower then
    "SELECT DISTINCT residence_city FROM employees LIMIT 10;"
  else
    "SELECT * FROM employees LIMIT 10;"

/-! ## SQL extraction and generation — `_extract_sql`, `generate_sql` -/

/-- The suffix of `s` starting at the first occurrence of `marker`
(Python `s[s.find(marker):]`, used only when `marker` occurs in `s`). -/
def fromFirst (marker : List Char) : List Char → List Char
  | [] => []
  | c :: rest => if marker.isPrefixOf (c :: rest) then c :: rest else fromFirst marker rest

/-- Helper of `afterLast`: `acc` is the text after the occurrence of `sep`
seen most recently, the third argument the rest of the scan. -/
def afterLastGo (sep : List Char) : List Char → List Char → List Char
  | acc, [] => acc
  | acc, c :: rest =>
    if sep.isPrefixOf (c :: rest) then afterLastGo sep ((c :: rest).drop sep.length) rest
    else afterLastGo sep acc rest

/-- The text after the last occurrence of `sep` in `s`, or `s` when `sep`
does not occur (Python `s.split(sep)[-1]` for a separator that cannot
overlap itself, such as `"SQL QUERY:"`). -/
def afterLast (sep s : List Char) : List Char := afterLastGo sep s s

/-- The common tail of `_extract_sql` (lines 139-141): truncate at the first
`;` or newline (`re.split(r'[;\n]', sql_part)[0]`), strip, and append a
terminator when the result does not already end with one. -/
def finalizeSql (sql_part : List Char) : String :=
  let p := pyStrip (sql_part.takeWhile fun c => !(c == ';' || c == '\n'))
  if p.getLast? = some ';' then String.mk p else String.mk (p ++ [';'])

/-- `SQLGenerator._extract_sql` (lines 129-143): the markers `"SQL QUERY:"`,
`"SELECT"`, `"WITH"` are tried in order; the first one present selects the
candidate text, which is then truncated, stripped and terminated; with no
marker the bounded catch-all query is returned. -/
def extract_sql (generated_text : String) : String :=
  let t := generated_text.toList
  if hasInfix "SQL QUERY:".toList t then
    finalizeSql (pyStrip (afterLast "SQL QUERY:".toList t))
  else if hasInfix "SELECT".toList t then
    finalizeSql (fromFirst "SELECT".toList t)
  else if hasInfix "WITH".toList t then
    finalizeSql (fromFirst "WITH".toList t)
  else
    "SELECT * FROM employees LIMIT 10;"

/-- `SQLGenerator.generate_sql` (lines 58-93) with the learned model
abstracted: `model_output = none` models an unavailable model (or a raised
generation error), in which case the rule-based fallback answers with no
error; `some text` models a successful model invocation whose decoded output
is `text`, which is extracted and safety-validated, a violation yielding
`(none, some message)`. -/
def generate_sql (enable_safety_checks : Bool) (model_output : Option String)
    (natural_language_query : String) : Option String × Option String :=
  match model_output with
  | none => (some (rule_based_sql natural_language_query), none)
  | some generated_text =>
    let sql_query := extract_sql generated_text
    let v := validate_sql_safety enable_safety_checks sql_query
    if v.1 then (some sql_query, none)
    else (none, some ("Safety violation: " ++ v.2))

/-! ## QueryExecutor — `DatabaseConnection.execute_query`

The relational store is abstracted as a state type `σ` with a fallible
row-returning read and a fallible mutating write; `Except.error` models a
raised driver exception.  `execute_query` mirrors connection.py lines 79-104:
classification by the first token, reads outside any transaction, writes
inside an explicit transaction committed on success and rolled back (state
restored) on failure; every exception becomes an error result. -/

/-- The abstract store boundary: a read returns rows and leaves the state
alone; a write yields a new state; either may fail with a driver message. -/
structure Store (σ ρ : Type) where
  read : String → σ → Except String (List ρ)
  write : String → σ → Except String σ

/-- `ExecutionOutcome`: rows for row-returning statements, empty for
successful mutations, or a caught driver error message. -/
inductive ExecOutcome (ρ : Type) where
  | rows : List ρ → ExecOutcome ρ
  | empty : ExecOutcome ρ
  | error : String → ExecOutcome ρ
deriving DecidableEq

/-- Result of one `execute_query` call: the outcome, the store state after
the call, and whether an explicit write transaction was opened. -/
structure ExecTrace (σ ρ : Type) where
  outcome : ExecOutcome ρ
  state : σ
  opened_write_transaction : Bool

/-- `first_word` of connection.py lines 84-85: strip the query, take its
first whitespace-delimited token, lower-cased (`''` for a blank query). -/
def firstWordLower (sql_query : String) : List Char :=
  ((pyStrip sql_query.toList).takeWhile fun c => !c.isWhitespace).map Char.toLower

/-- The row-returning leading tokens of connection.py line 87, in source
order. -/
def row_returning_first_words : List (List Char) :=
  ["select", "pragma", "explain", "with", "show"].map String.toList

/-- `DatabaseConnection.execute_query` (connection.py lines 79-104). -/
def execute_query {σ ρ : Type} (st : Store σ ρ) (s : σ) (sql_query : String) :
    ExecTrace σ ρ :=
  if firstWordLower sql_query ∈ row_returning_first_words then
    match st.read sql_query s with
    | Except.ok rs => ⟨ExecOutcome.rows rs, s, false⟩
    | Except.error e => ⟨ExecOutcome.error e, s, false⟩
  else
    match st.write sql_query s with
    | Except.ok s2 => ⟨ExecOutcome.empty, s2, true⟩
    | Except.error e => ⟨ExecOutcome.error e, s, true⟩

/-! ## HistoryStore — `save_query_history`, `get_query_history`

The `query_history` table is an explicit list of rows; `AUTOINCREMENT`
assigns one more than the largest id present.  The wall clock and the pandas
`to_json` serialisation are passed in explicitly.  The happy path of the
source (the SQLAlchemy branch, no storage fault) is modelled. -/

/-- One row of the `query_history` table (connection.py lines 34-44). -/
structure HistoryRow where
  id : Nat
  timestamp : String
  user_query : String
  sql_query : String
  result : String
  error : String
  favorite : Nat
deriving DecidableEq, Repr

/-- `AUTOINCREMENT`: one more than the largest id in the table. -/
def nextHistoryId (table : List HistoryRow) : Nat :=
  ((table.map HistoryRow.id).foldr Nat.max 0) + 1

/-- Python `error or ''`: the empty string when `error` is `None` or empty. -/
def pyOrEmpty : Option String → String
  | none => ""
  | some e => if e = "" then "" else e

/-- `DatabaseConnection.save_query_history` (connection.py lines 106-156):
serialise the result (`''` for `None`), insert one row with the next id, and
return the new table together with the inserted id. -/
def save_query_history {ρ : Type} (table : List HistoryRow)
    (timestamp user_query sql_query : String) (result_df : Option (List ρ))
    (to_json : List ρ → String) (error : Option String) (favorite : Bool) :
    List HistoryRow × Int :=
  let result_text := match result_df with
    | none => ""
    | some df => to_json df
  let fav_val : Nat := if favorite then 1 else 0
  let rid := nextHistoryId table
  (table ++ [⟨rid, timestamp, user_query, sql_query, result_text, pyOrEmpty error, fav_val⟩],
   Int.ofNat rid)

/-- Insert a row into a list sorted by descending id, keeping it sorted. -/
def insertByIdDesc (r : HistoryRow) : List HistoryRow → List HistoryRow
  | [] => [r]
  | x :: xs => if x.id ≤ r.id then r :: x :: xs else x :: insertByIdDesc r xs

/-- Sort rows by descending id (`ORDER BY id DESC`). -/
def sortByIdDesc : List HistoryRow → List HistoryRow
  | [] => []
  | x :: xs => insertByIdDesc x (sortByIdDesc xs)

/-- `DatabaseConnection.get_query_history` (connection.py lines 158-183):
`SELECT ... ORDER BY id DESC LIMIT :lim` on the happy path. -/
def get_query_history (table : List HistoryRow) (limit : Nat) : List HistoryRow :=
  (sortByIdDesc table).take limit

/-! ## Orchestrator — `NLToSQLApp.process_query` (main.py lines 146-180)

Generation is `generate_sql`; execution is abstracted as a function from the
query string to the `(result rows?, error?)` pair `execute_query` returns to
the caller.  The returned pair is the history table after the cycle and the
generation error surfaced to the user (`some e` means the cycle stopped at
the generation/validation stage). -/

/-- `NLToSQLApp.process_query`: on a generation error the cycle returns
early (main.py lines 154-156); otherwise the query is executed and one
history row is appended whatever the execution outcome. -/
def process_query {ρ : Type} (enable_safety_checks : Bool)
    (model_output : Option String)
    (execute : String → Option (List ρ) × Option String)
    (to_json : List ρ → String) (timestamp : String)
    (user_query : String) (history : List HistoryRow) :
    List HistoryRow × Option String :=
  match generate_sql enable_safety_checks model_output user_query with
  | (_, some error) => (history, some error)
  | (sql_opt, none) =>
    let sql_query := sql_opt.getD ""
    let er := execute sql_query
    let saved := save_query_history history timestamp user_query sql_query
      er.1 to_json er.2 false
    (saved.1, none)

/-! ## SchemaIntrospector — `SchemaManager._refresh_schema`

`_refresh_schema` (schema_manager.py lines 12-23) assigns `self.schema = {}`
and then inserts the tables one at a time in catalog order.  A concurrent
reader of `self.schema` can therefore observe, besides the prior context,
the empty mapping and every partial prefix of the rebuild.
`refreshSchemaStates` is that published sequence, starting at the state just
after `self.schema = {}`. -/

/-- One table's cached entry: column name/type pairs and sample rows. -/
structure TableInfo where
  columns : List (String × String)
  sample_data : List (List (String × String))
deriving DecidableEq, Repr

/-- The schema mapping after inserting the given tables in order, each with
its introspected info. -/
def buildSchema (tables : List String) (info : String → TableInfo) :
    List (String × TableInfo) :=
  tables.map fun t => (t, info t)

/-- The states of `self.schema` published while `_refresh_schema` runs: the
empty mapping, then each prefix of the rebuild, ending with the full
schema. -/
def refreshSchemaStates (tables : List String) (info : String → TableInfo) :
    List (List (String × TableInfo)) :=
  (List.range (tables.length + 1)).map fun k => buildSchema (tables.take k) info

/-! ## Concrete stores and data used by the closed instances below -/

/-- A store whose reads return the state as the single row and whose writes
increment the state; both always succeed. -/
def demoStore : Store Nat Nat :=
  ⟨fun _ n => Except.ok [n], fun _ n => Except.ok (n + 1)⟩

/-- A store whose reads and writes always raise. -/
def failStore : Store Nat Nat :=
  ⟨fun _ _ => Except.error "no such table: employees",
   fun _ _ => Except.error "no such table: employees"⟩

/-- A one-table catalog used by the schema-refresh instances. -/
def employeesInfo : String → TableInfo :=
  fun _ => ⟨[("id", "INTEGER"), ("name", "TEXT")], [[("id", "1"), ("name", "A")]]⟩

/-- A character unaffected by `Char.toUpper` and hit by no other character:
scanning for it commutes with upper-casing. -/
def UpperFixed (t : Char) : Prop := ∀ c : Char, c.toUpper = t ↔ c = t

/-! ## Helper lemmas -/

/-- Unfolding `execute_query` on a row-returning first token: no transaction,
state untouched, outcome decided by the read. -/
theorem execute_query_read_case {σ ρ : Type} (st : Store σ ρ) (s : σ)
    (sql_query : String) (h : firstWordLower sql_query ∈ row_returning_first_words) :
    execute_query st s sql_query =
      match st.read sql_query s with
      | Except.ok rs => ⟨ExecOutcome.rows rs, s, false⟩
      | Except.error e => ⟨ExecOutcome.error e, s, false⟩ := by
  unfold execute_query
  rw [if_pos h]

/-- Unfolding `execute_query` on any other first token: a write transaction,
committed into the new state or rolled back to the old one. -/
theorem execute_query_write_case {σ ρ : Type} (st : Store σ ρ) (s : σ)
    (sql_query : String) (h : firstWordLower sql_query ∉ row_returning_first_words) :
    execute_query st s sql_query =
      match st.write sql_query s with
      | Except.ok s2 => ⟨ExecOutcome.empty, s2, true⟩
      | Except.error e => ⟨ExecOutcome.error e, s, true⟩ := by
  unfold execute_query
  rw [if_neg h]

/-- `extract_department` can only answer a title-cased vocabulary entry or
the empty string. -/
theorem extract_department_mem (l : List Char) :
    extract_department l ∈ (["It", "Marketing", "Sales", "Finance", "Hr", ""] : List String) := by
  unfold extract_department
  cases h : departments.find? (fun d => hasInfix d.toList l) with
  | none => simp
  | some d =>
    have hd := List.mem_of_find?_eq_some h
    simp only [departments, List.mem_cons, List.not_mem_nil, or_false] at hd
    rcases hd with rfl | rfl | rfl | rfl | rfl <;> decide

/-! ## C6, C7, C10 — the rule-based translator -/

/-- C6: for every request whose lowercased text contains both "count" and
"department", the rule-based translator answers the fixed GROUP BY COUNT
query on employees.department — the first branch of `_rule_based_sql`, taken
deterministically and independent of model availability. -/
theorem count_department_rule (q : String)
    (h1 : hasInfix "count".toList (q.toList.map Char.toLower) = true)
    (h2 : hasInfix "department".toList (q.toList.map Char.toLower) = true) :
    rule_based_sql q =
      "SELECT department, COUNT(*) as employee_count FROM employees GROUP BY department;" := by
  simp only [rule_based_sql]
  rw [h1, h2]
  simp

/-- Closed instance of `count_department_rule`. -/
theorem count_department_rule_witness :
    rule_based_sql "count employees in each department" =
      "SELECT department, COUNT(*) as employee_count FROM employees GROUP BY department;" :=
  count_department_rule "count employees in each department" (by decide) (by decide)

/-- C7: the two concrete scenarios of the spec, resolved by the
source-ordered keyword checks of `_rule_based_sql`: the average-salary
request takes the average+salary branch (grouped, because "department"
also occurs), and the top-5 request takes the highest/top branch. -/
theorem concrete_translation_scenarios :
    rule_based_sql "Show me the average salary by department" =
      "SELECT department, AVG(salary) as avg_salary FROM employees GROUP BY department;" ∧
    rule_based_sql "Top 5 highest paid employees" =
      "SELECT * FROM employees ORDER BY salary DESC LIMIT 5;" :=
  ⟨by decide, by decide⟩

/-- C10: department extraction matches by substring, not whole word.  Any
request reaching the department branch whose lowercased text contains "it"
anywhere — also inside another word — selects the department `'It'`. -/
theorem department_substring_extraction (q : String)
    (hdept : hasInfix "department".toList (q.toList.map Char.toLower) = true)
    (hcount : hasInfix "count".toList (q.toList.map Char.toLower) = false)
    (havg : (hasInfix "average".toList (q.toList.map Char.toLower) &&
             hasInfix "salary".toList (q.toList.map Char.toLower)) = false)
    (hhigh : hasInfix "highest".toList (q.toList.map Char.toLower) = false)
    (htop : hasInfix "top".toList (q.toList.map Char.toLower) = false)
    (hlow : hasInfix "lowest".toList (q.toList.map Char.toLower) = false)
    (hit : hasInfix "it".toList (q.toList.map Char.toLower) = true) :
    rule_based_sql q = "SELECT * FROM employees WHERE department = 'It';" := by
  simp only [rule_based_sql]
  rw [hcount, hdept, havg, hhigh, htop, hlow]
  simp only [Bool.false_and, Bool.false_or, Bool.or_self, Bool.false_eq_true,
    if_false, if_true, ite_false, ite_true]
  simp only [extract_department, departments, List.find?, hit]
  decide

/-- Closed instance of `department_substring_extraction`: "with" contains
"it" as a substring, so the request is routed to the IT department. -/
theorem department_substring_extraction_witness :
    rule_based_sql "employees with a department" =
      "SELECT * FROM employees WHERE department = 'It';" :=
  department_substring_extraction "employees with a department"
    (by decide) (by decide) (by decide) (by decide) (by decide) (by decide) (by decide)

/-! ## C3, C4 — `execute_query` classification and error conversion -/

/-- C3: `execute_query` classifies a query by its first whitespace-delimited
token, lower-cased.  A token among select/with/pragma/explain/show runs in
read mode and never opens a write transaction; any other leading token runs
inside an explicit transaction that, on success, commits the written state
and produces the empty (non-row) result. -/
theorem execute_query_classification {σ ρ : Type} (st : Store σ ρ) (s : σ)
    (sql_query : String) (hne : sql_query ≠ "") :
    (firstWordLower sql_query ∈ row_returning_first_words →
      (execute_query st s sql_query).opened_write_transaction = false ∧
      ∀ rs, st.read sql_query s = Except.ok rs →
        execute_query st s sql_query = ⟨ExecOutcome.rows rs, s, false⟩) ∧
    (firstWordLower sql_query ∉ row_returning_first_words →
      (execute_query st s sql_query).opened_write_transaction = true ∧
      ∀ s2, st.write sql_query s = Except.ok s2 →
        execute_query st s sql_query = ⟨ExecOutcome.empty, s2, true⟩) := by
  constructor
  · intro h
    rw [execute_query_read_case st s sql_query h]
    constructor
    · cases st.read sql_query s <;> rfl
    · intro rs hrs
      rw [hrs]
  · intro h
    rw [execute_query_write_case st s sql_query h]
    constructor
    · cases st.write sql_query s <;> rfl
    · intro s2 hs2
      rw [hs2]

/-- Closed instance of `execute_query_classification` on `demoStore`: an
upper-case SELECT reads without a transaction; an INSERT commits the
incremented state with an empty result. -/
theorem execute_query_classification_witness :
    execute_query demoStore 0 "SELECT * FROM employees" =
      ⟨ExecOutcome.rows [0], 0, false⟩ ∧
    execute_query demoStore 0 "INSERT INTO employees VALUES (1)" =
      ⟨ExecOutcome.empty, 1, true⟩ :=
  ⟨((execute_query_classification demoStore 0 "SELECT * FROM employees"
      (by decide)).1 (by decide)).2 [0] rfl,
   ((execute_query_classification demoStore 0 "INSERT INTO employees VALUES (1)"
      (by decide)).2 (by decide)).2 1 rfl⟩

/-- C4: a store fault during execution is caught and returned as an error
outcome carrying the fault message — never re-raised — and the store state
is left unchanged: reads touch nothing, and a failing write is rolled back
to the pre-call state. -/
theorem execute_query_fault_handling {σ ρ : Type} (st : Store σ ρ) (s : σ)
    (sql_query : String) (e : String) :
    (firstWordLower sql_query ∈ row_returning_first_words →
      st.read sql_query s = Except.error e →
      execute_query st s sql_query = ⟨ExecOutcome.error e, s, false⟩) ∧
    (firstWordLower sql_query ∉ row_returning_first_words →
      st.write sql_query s = Except.error e →
      execute_query st s sql_query = ⟨ExecOutcome.error e, s, true⟩) := by
  constructor
  · intro h hre
    rw [execute_query_read_case st s sql_query h, hre]
  · intro h hwe
    rw [execute_query_write_case st s sql_query h, hwe]

/-- Closed instance of `execute_query_fault_handling` on `failStore`: the
driver message is surfaced as the outcome and the state is unchanged for a
read as well as for a rolled-back write. -/
theorem execute_query_fault_handling_witness :
    execute_query failStore 7 "SELECT 1" =
      ⟨ExecOutcome.error "no such table: employees", 7, false⟩ ∧
    execute_query failStore 7 "DELETE FROM employees" =
      ⟨ExecOutcome.error "no such table: employees", 7, true⟩ :=
  ⟨(execute_query_fault_handling failStore 7 "SELECT 1"
      "no such table: employees").1 (by decide) rfl,
   (execute_query_fault_handling failStore 7 "DELETE FROM employees"
      "no such table: employees").2 (by decide) rfl⟩

/-! ## C5 — schema refresh is not an atomic swap

`_refresh_schema` assigns `self.schema = {}` and then fills the mapping
in place, one table per loop iteration; the claim that a concurrent reader
can only ever observe the complete old or the complete new context is false:
the empty mapping is published, and it lacks every table the old context
had.  The amended statement: the published states are exactly the prefix
rebuilds, beginning with the empty mapping and ending with the complete
schema. -/

/-- C5 counterexample: with catalog `["employees"]` (and the refresh being
re-run over an unchanged store, so the prior context equals the rebuilt
one), the empty mapping is one of the states `_refresh_schema` publishes,
and it differs from the prior/new context — a reader can observe a schema
missing the table `employees` that the old context had. -/
theorem refresh_not_atomic_counterexample :
    [] ∈ refreshSchemaStates ["employees"] employeesInfo ∧
    ([] : List (String × TableInfo)) ≠ buildSchema ["employees"] employeesInfo := by
  constructor
  · decide
  · decide

/-- C5 amended: the refresh rebuilds the cached schema in place rather than
swapping in a finished context: the sequence of published states starts at
the empty mapping, every published state is the rebuild of some catalog
prefix, and the final published state is the complete schema containing
every introspected table. -/
theorem refresh_publishes_prefix_states (tables : List String)
    (info : String → TableInfo) :
    (refreshSchemaStates tables info).head? = some [] ∧
    (refreshSchemaStates tables info).getLast? = some (buildSchema tables info) ∧
    ∀ st ∈ refreshSchemaStates tables info,
      ∃ k, k ≤ tables.length ∧ st = buildSchema (tables.take k) info := by
  refine ⟨?_, ?_, ?_⟩
  · rw [refreshSchemaStates, List.range_succ_eq_map]
    simp [buildSchema]
  · rw [refreshSchemaStates, List.range_succ, List.map_append]
    simp
  · intro st hst
    rw [refreshSchemaStates, List.mem_map] at hst
    obtain ⟨k, hk, rfl⟩ := hst
    rw [List.mem_range] at hk
    exact ⟨k, by omega, rfl⟩

/-! ## C8 — history append/recent round trip -/

/-- Every member of a list is bounded by its max-fold. -/
theorem le_foldr_max (l : List Nat) (x : Nat) (hx : x ∈ l) :
    x ≤ l.foldr Nat.max 0 := by
  induction l with
  | nil => cases hx
  | cons a l ih =>
    rcases List.mem_cons.mp hx with rfl | hx2
    · exact Nat.le_max_left x (l.foldr Nat.max 0)
    · exact Nat.le_trans (ih hx2) (Nat.le_max_right a (l.foldr Nat.max 0))

/-- The id `AUTOINCREMENT` assigns is strictly above every id present. -/
theorem id_lt_nextHistoryId (table : List HistoryRow) (r : HistoryRow)
    (hr : r ∈ table) : r.id < nextHistoryId table := by
  have : r.id ≤ (table.map HistoryRow.id).foldr Nat.max 0 :=
    le_foldr_max _ _ (List.mem_map_of_mem HistoryRow.id hr)
  unfold nextHistoryId
  omega

/-- Appending a row whose id tops every existing id sorts to the front. -/
theorem sortByIdDesc_append_max (l : List HistoryRow) (r : HistoryRow)
    (h : ∀ x ∈ l, x.id < r.id) :
    sortByIdDesc (l ++ [r]) = r :: sortByIdDesc l := by
  induction l with
  | nil => rfl
  | cons x l ih =>
    have hx : x.id < r.id := h x (List.mem_cons_self x l)
    rw [List.cons_append, sortByIdDesc, ih (fun y hy => h y (List.mem_cons_of_mem x hy))]
    rw [sortByIdDesc, insertByIdDesc, if_neg (by omega)]

/-- Python `error or ''` is the identity on a present error text. -/
theorem pyOrEmpty_some (e : String) : pyOrEmpty (some e) = e := by
  show (if e = "" then "" else e) = e
  split
  · rename_i he
    rw [he]
  · rfl

/-- C8: after appending a history record, retrieving recent history with any
limit of at least one succeeds, and the first (most recent) record returned
carries exactly the appended request text, query text and error text. -/
theorem history_round_trip {ρ : Type} (table : List HistoryRow)
    (timestamp user_query sql_query : String) (result_df : Option (List ρ))
    (to_json : List ρ → String) (error_text : String) (limit : Nat)
    (hlim : 1 ≤ limit) :
    ((get_query_history
        (save_query_history table timestamp user_query sql_query result_df
          to_json (some error_text) false).1 limit).head?.map
      fun r => (r.user_query, r.sql_query, r.error)) =
      some (user_query, sql_query, error_text) := by
  unfold save_query_history get_query_history
  rw [sortByIdDesc_append_max _ _ (fun x hx => id_lt_nextHistoryId table x hx)]
  obtain ⟨n, rfl⟩ : ∃ n, limit = n + 1 := ⟨limit - 1, by omega⟩
  rw [List.take_succ_cons, List.head?_cons, Option.map_some', pyOrEmpty_some]

/-- Closed instance of `history_round_trip` starting from an empty table. -/
theorem history_round_trip_witness :
    ((get_query_history
        (save_query_history [] "2024-01-01T00:00:00" "count by department"
          "SELECT COUNT(*) FROM employees;" (some ([[1]] : List (List Nat)))
          (fun _ => "[]") (some "no such table") false).1 20).head?.map
      fun r => (r.user_query, r.sql_query, r.error)) =
      some ("count by department", "SELECT COUNT(*) FROM employees;", "no such table") :=
  history_round_trip [] "2024-01-01T00:00:00" "count by department"
    "SELECT COUNT(*) FROM employees;" (some [[1]]) (fun _ => "[]")
    "no such table" 20 (by omega)

/-! ## C1 — a safety violation ends the cycle before logging

`process_query` (main.py lines 152-156) returns as soon as `generate_sql`
reports an error; `save_query_history` (line 167) is reached only on the
non-error path.  A cycle whose candidate query fails safety validation
therefore appends no history record, contrary to the claim. -/

/-- C1 counterexample: a model output whose extracted query trips the
keyword denylist makes `generate_sql` report a safety violation, and
`process_query` then leaves the history table exactly as it was — no record
with the violation as error text is appended. -/
theorem safety_violation_not_logged_counterexample :
    (generate_sql true (some "SELECT * FROM t WHERE a = 'DROP'")
        "drop employee records").2 =
      some "Safety violation: Dangerous SQL pattern detected: \\b(DROP|DELETE|UPDATE|INSERT|ALTER|TRUNCATE|CREATE|EXEC)\\b" ∧
    (process_query true (some "SELECT * FROM t WHERE a = 'DROP'")
        (fun _ => ((none : Option (List Nat)), (none : Option String)))
        (fun _ => "") "2024-01-01T00:00:00" "drop employee records" []).1 = [] :=
  ⟨by decide, by decide⟩

/-- C1 amended: a cycle whose generation (including safety validation)
reports an error terminates with that error surfaced and the history table
unchanged; a history record is appended exactly in the cycles where
generation succeeds — then one record carrying the request text and the
executed query is appended, whatever the execution outcome. -/
theorem generation_error_skips_logging {ρ : Type} (enable_safety_checks : Bool)
    (model_output : Option String)
    (execute : String → Option (List ρ) × Option String)
    (to_json : List ρ → String) (timestamp user_query : String)
    (history : List HistoryRow) :
    ((generate_sql enable_safety_checks model_output user_query).2.isSome = true →
      process_query enable_safety_checks model_output execute to_json timestamp
          user_query history =
        (history, (generate_sql enable_safety_checks model_output user_query).2)) ∧
    ((generate_sql enable_safety_checks model_output user_query).2 = none →
      ∃ row : HistoryRow,
        (process_query enable_safety_checks model_output execute to_json timestamp
            user_query history).1 = history ++ [row] ∧
        row.user_query = user_query ∧
        row.sql_query =
          (generate_sql enable_safety_checks model_output user_query).1.getD "") := by
  rcases hg : generate_sql enable_safety_checks model_output user_query with ⟨sqlo, erro⟩
  unfold process_query
  rw [hg]
  cases erro with
  | some e =>
    constructor
    · intro _
      rfl
    · intro hnone
      simp at hnone
  | none =>
    constructor
    · intro hsome
      simp at hsome
    · intro _
      exact ⟨_, rfl, rfl, rfl⟩

/-- Closed instance of `generation_error_skips_logging`: the fallback path
generates without error, and exactly one record is appended. -/
theorem generation_error_skips_logging_witness :
    ∃ row : HistoryRow,
      (process_query true none
          (fun _ => ((none : Option (List Nat)), (none : Option String)))
          (fun _ => "") "2024-01-01T00:00:00" "show employees" []).1 = [] ++ [row] ∧
      row.user_query = "show employees" ∧
      row.sql_query = (generate_sql true none "show employees").1.getD "" :=
  (generation_error_skips_logging true none
      (fun _ => ((none : Option (List Nat)), (none : Option String)))
      (fun _ => "") "2024-01-01T00:00:00" "show employees" []).2 rfl

/-! ## C2 — the safety validator

The keyword scanner `hasDangerKeyword` is proved equivalent to the
specification-side predicate `ContainsWholeWord`, and upper-casing is proved
transparent to the terminator/comment scanners, so the validator's verdict
can be stated against the raw query text. -/

/-- A character that upper-casing neither moves nor is moved onto: not a
lower-case letter (else `toUpper t ≠ t`) and not an upper-case letter (else
some lower-case letter maps onto it). -/
theorem upperFixed_nonletter (t : Char)
    (htl : ¬(97 ≤ t.toNat ∧ t.toNat ≤ 122))
    (htu : ¬(65 ≤ t.toNat ∧ t.toNat ≤ 90)) : UpperFixed t := by
  intro c
  constructor
  · intro h
    simp only [Char.toUpper] at h
    split at h
    · rename_i hr
      obtain ⟨h1, h2⟩ := hr
      exfalso
      set n := c.toNat with hn
      interval_cases n <;> (subst h; exact htu (by decide))
    · exact h
  · intro h
    subst h
    simp only [Char.toUpper]
    split
    · rename_i hr
      exact absurd hr htl
    · rfl

/-- A whole-word occurrence is found by the positional scanner. -/
theorem hasDangerKeyword_of_whole_word {s : List Char} {w : String}
    (hw : w ∈ denyKeywords) (hcw : ContainsWholeWord s w.toList) :
    hasDangerKeyword s = true := by
  obtain ⟨pre, post, hs, hpre, hpost⟩ := hcw
  unfold hasDangerKeyword
  rw [List.any_eq_true]
  refine ⟨pre.length, List.mem_range.mpr ?_, ?_⟩
  · subst hs
    simp only [List.length_append]
    omega
  · rw [List.any_eq_true]
    refine ⟨w, hw, ?_⟩
    subst hs
    unfold wordAt
    rw [Bool.and_eq_true, Bool.and_eq_true]
    refine ⟨⟨?_, ?_⟩, ?_⟩
    · rw [List.append_assoc, List.drop_left]
      exact List.isPrefixOf_iff_prefix.mpr (List.prefix_append _ _)
    · rcases List.eq_nil_or_concat pre with rfl | ⟨l2, c, rfl⟩
      · simp
      · rw [Bool.or_eq_true]
        right
        rw [List.concat_eq_append] at hpre ⊢
        rw [List.getLast?_concat] at hpre
        have hidx : ((l2 ++ [c]) ++ (w.toList ++ post)).getD ((l2 ++ [c]).length - 1) ' ' = c := by
          rw [List.getD_eq_getElem?_getD, List.append_assoc,
            List.length_append]
          simp only [List.length_singleton, Nat.add_sub_cancel]
          rw [List.getElem?_append_right (Nat.le_refl _), Nat.sub_self]
          simp
        rw [← List.append_assoc] at hidx
        rw [hidx]
        simpa using hpre
    · have h2 : (pre ++ w.toList ++ post).getD (pre.length + w.toList.length) ' ' =
          post.head?.getD ' ' := by
        rw [List.getD_eq_getElem?_getD, ← List.length_append,
          List.getElem?_append_right (Nat.le_refl _), Nat.sub_self,
          ← List.head?_eq_getElem?]
      rw [h2]
      cases hp : post.head? with
      | none => decide
      | some c =>
        rw [hp] at hpost
        simpa using hpost

/-- What the positional scanner finds is a whole-word occurrence. -/
theorem whole_word_of_hasDangerKeyword {s : List Char}
    (h : hasDangerKeyword s = true) :
    ∃ w ∈ denyKeywords, ContainsWholeWord s w.toList := by
  unfold hasDangerKeyword at h
  rw [List.any_eq_true] at h
  obtain ⟨i, hi, h2⟩ := h
  rw [List.mem_range] at hi
  rw [List.any_eq_true] at h2
  obtain ⟨w, hw, hwa⟩ := h2
  refine ⟨w, hw, ?_⟩
  unfold wordAt at hwa
  rw [Bool.and_eq_true, Bool.and_eq_true] at hwa
  obtain ⟨⟨hpref, hprev⟩, hnext⟩ := hwa
  rw [List.isPrefixOf_iff_prefix] at hpref
  obtain ⟨t, ht⟩ := hpref
  refine ⟨s.take i, t, ?_, ?_, ?_⟩
  · rw [List.append_assoc, ht, List.take_append_drop]
  · cases i with
    | zero => rfl
    | succ j =>
      have hj : j < s.length := by
        omega
      have hc : (s.take (j + 1)).getLast? = s[j]? := by
        rw [List.getLast?_eq_getElem?, List.length_take]
        have hmin : (j + 1) ⊓ s.length = j + 1 := by
          omega
        rw [hmin, Nat.add_sub_cancel, List.getElem?_take]
        rw [if_pos (Nat.lt_succ_self j)]
      rw [hc, List.getElem?_eq_getElem hj]
      rw [Bool.or_eq_true] at hprev
      rcases hprev with habs | hok
      · simp at habs
      · rw [List.getD_eq_getElem?_getD, Nat.add_sub_cancel,
          List.getElem?_eq_getElem hj] at hok
        simpa using hok
  · have hlen : w.toList.length + t.length = s.length - i := by
      have := congrArg List.length ht
      rw [List.length_append, List.length_drop] at this
      omega
    cases hp : t.head? with
    | none => rfl
    | some c =>
      have hj2 : s[i + w.toList.length]? = some c := by
        have h1 : (w.toList ++ t)[w.toList.length]? = some c := by
          rw [List.getElem?_append_right (Nat.le_refl _), Nat.sub_self,
            ← List.head?_eq_getElem?, hp]
        rw [ht, List.getElem?_drop] at h1
        exact h1
      rw [List.getD_eq_getElem?_getD, hj2] at hnext
      simpa using hnext

/-- Prefix tests for a pattern of upper-fixed characters see through
upper-casing. -/
theorem isPrefixOf_map_toUpper (p : List Char) (hp : ∀ x ∈ p, UpperFixed x) :
    ∀ l : List Char, p.isPrefixOf (l.map Char.toUpper) = p.isPrefixOf l := by
  induction p with
  | nil => intro l; cases l <;> rfl
  | cons a p2 ih =>
    intro l
    cases l with
    | nil => rfl
    | cons c l2 =>
      show ((a == c.toUpper) && p2.isPrefixOf (l2.map Char.toUpper)) =
        ((a == c) && p2.isPrefixOf l2)
      rw [ih (fun x hx => hp x (List.mem_cons_of_mem a hx)) l2]
      have ha := hp a (List.mem_cons_self a p2)
      have : (a == c.toUpper) = (a == c) := by
        rw [Bool.eq_iff_iff]
        simp only [beq_iff_eq]
        constructor
        · intro h
          exact ((ha c).mp h.symm).symm
        · intro h
          exact ((ha c).mpr h.symm).symm
      rw [this]

/-- Substring tests for a pattern of upper-fixed characters see through
upper-casing. -/
theorem hasInfix_map_toUpper (p : List Char) (hp : ∀ x ∈ p, UpperFixed x)
    (l : List Char) : hasInfix p (l.map Char.toUpper) = hasInfix p l := by
  induction l with
  | nil => rfl
  | cons c l2 ih =>
    show (p.isPrefixOf ((c :: l2).map Char.toUpper) || hasInfix p (l2.map Char.toUpper)) =
      (p.isPrefixOf (c :: l2) || hasInfix p (c :: l2).tail)
    rw [isPrefixOf_map_toUpper p hp (c :: l2), ih]
    rfl

/-- Upper-casing preserves the number of statement terminators. -/
theorem count_semi_map_toUpper (l : List Char) :
    (l.map Char.toUpper).count ';' = l.count ';' := by
  have hsemi : UpperFixed ';' := upperFixed_nonletter ';' (by decide) (by decide)
  induction l with
  | nil => rfl
  | cons c l2 ih =>
    rw [List.map_cons, List.count_cons, List.count_cons, ih]
    have : (c.toUpper == ';') = (c == ';') := by
      rw [Bool.eq_iff_iff]
      simp only [beq_iff_eq]
      exact hsemi c
    rw [this]

/-- A positive `semiBeforeNewline` scan pinpoints a terminator. -/
theorem one_le_count_of_semiBeforeNewline (l : List Char)
    (h : semiBeforeNewline l = true) : 1 ≤ l.count ';' := by
  induction l with
  | nil => cases h
  | cons c l2 ih =>
    rw [semiBeforeNewline] at h
    rw [List.count_cons]
    by_cases h1 : c = ';'
    · subst h1
      simp
    · rw [if_neg h1] at h
      by_cases h2 : c = '\n'
      · rw [if_pos h2] at h
        cases h
      · rw [if_neg h2] at h
        have := ih h
        omega

/-- At most one terminator in the text defeats the `;.*;` pattern. -/
theorem hasStacked_false_of_count (l : List Char) (h : l.count ';' ≤ 1) :
    hasStacked l = false := by
  induction l with
  | nil => rfl
  | cons c l2 ih =>
    rw [List.count_cons] at h
    rw [hasStacked]
    by_cases h1 : c = ';'
    · subst h1
      simp at h
      have hsb : semiBeforeNewline l2 = false := by
        cases hs : semiBeforeNewline l2
        · rfl
        · exfalso
          have := one_le_count_of_semiBeforeNewline l2 hs
          omega
      rw [hsb, ih (by omega)]
      simp
    · have hb : (c == ';') = false := by
        simpa using h1
      rw [hb] at h
      simp at h
      rw [ih h]
      simp [h1]

/-- A positive block-comment scan exhibits the opening marker. -/
theorem open_marker_of_hasBlockComment (l : List Char)
    (h : hasBlockComment l = true) : hasInfix ['/', '*'] l = true := by
  induction l with
  | nil => cases h
  | cons c l2 ih =>
    rw [hasBlockComment] at h
    rw [hasInfix, Bool.or_eq_true]
    by_cases hc : c = '/' ∧ l2.head? = some '*'
    · left
      obtain ⟨rfl, hh⟩ := hc
      cases l2 with
      | nil => cases hh
      | cons d l3 =>
        rw [List.head?_cons] at hh
        injection hh with h3
        subst h3
        simp [List.isPrefixOf]
    · rw [if_neg hc] at h
      right
      exact ih h

/-- No opening marker in the text defeats the `/\*.*\*/` pattern. -/
theorem hasBlockComment_false_of_no_open (l : List Char)
    (h : hasInfix ['/', '*'] l = false) : hasBlockComment l = false := by
  cases hb : hasBlockComment l
  · rfl
  · rw [open_marker_of_hasBlockComment l hb] at h
    cases h

/-- C2: with safety checks enabled, a query containing a denylisted keyword
as a whole word (case-insensitively: the test is on its upper-cased text) is
rejected with the reason naming the first matched pattern — the keyword
denylist regex, checked before the others; a query with no denylisted
whole-word token, at most one statement terminator, and neither line- nor
block-comment opening markers is allowed with the fixed safe verdict. -/
theorem validator_denylist (q : String) :
    ((∃ w ∈ denyKeywords, ContainsWholeWord (q.toList.map Char.toUpper) w.toList) →
      validate_sql_safety true q =
        (false, "Dangerous SQL pattern detected: \\b(DROP|DELETE|UPDATE|INSERT|ALTER|TRUNCATE|CREATE|EXEC)\\b")) ∧
    ((¬ ∃ w ∈ denyKeywords, ContainsWholeWord (q.toList.map Char.toUpper) w.toList) →
      q.toList.count ';' ≤ 1 →
      hasInfix ['-', '-'] q.toList = false →
      hasInfix ['/', '*'] q.toList = false →
      validate_sql_safety true q = (true, "Query is safe")) := by
  have hfixdash : ∀ x ∈ (['-', '-'] : List Char), UpperFixed x := by
    intro x hx
    simp only [List.mem_cons, List.not_mem_nil, or_false, or_self] at hx
    subst hx
    exact upperFixed_nonletter '-' (by decide) (by decide)
  have hfixopen : ∀ x ∈ (['/', '*'] : List Char), UpperFixed x := by
    intro x hx
    simp only [List.mem_cons, List.not_mem_nil, or_false] at hx
    rcases hx with rfl | rfl
    · exact upperFixed_nonletter '/' (by decide) (by decide)
    · exact upperFixed_nonletter '*' (by decide) (by decide)
  constructor
  · rintro ⟨w, hw, hcw⟩
    have hd := hasDangerKeyword_of_whole_word hw hcw
    unfold validate_sql_safety
    simp only [Bool.not_true, Bool.false_eq_true, if_false, hd, if_true]
  · intro hno hsemi hdash hopen
    have hd : hasDangerKeyword (q.toList.map Char.toUpper) = false := by
      cases hdk : hasDangerKeyword (q.toList.map Char.toUpper)
      · rfl
      · exact absurd (whole_word_of_hasDangerKeyword hdk) hno
    have hs : hasStacked (q.toList.map Char.toUpper) = false := by
      apply hasStacked_false_of_count
      rw [count_semi_map_toUpper]
      exact hsemi
    have hdash2 : hasInfix ['-', '-'] (q.toList.map Char.toUpper) = false := by
      rw [hasInfix_map_toUpper ['-', '-'] hfixdash]
      exact hdash
    have hopen2 : hasInfix ['/', '*'] (q.toList.map Char.toUpper) = false := by
      rw [hasInfix_map_toUpper ['/', '*'] hfixopen]
      exact hopen
    have hbc := hasBlockComment_false_of_no_open _ hopen2
    unfold validate_sql_safety
    simp only [Bool.not_true, Bool.false_eq_true, if_false, hd, hs, hdash2,
      hbc, if_true]

/-- Closed instance of `validator_denylist`: a destructive statement is
rejected naming the keyword pattern; a plain bounded SELECT is allowed. -/
theorem validator_denylist_witness :
    validate_sql_safety true "DROP TABLE employees" =
      (false, "Dangerous SQL pattern detected: \\b(DROP|DELETE|UPDATE|INSERT|ALTER|TRUNCATE|CREATE|EXEC)\\b") ∧
    validate_sql_safety true "SELECT * FROM employees;" = (true, "Query is safe") := by
  constructor
  · apply (validator_denylist "DROP TABLE employees").1
    refine ⟨"DROP", by decide, [], " TABLE EMPLOYEES".toList, by decide, by decide, by decide⟩
  · apply (validator_denylist "SELECT * FROM employees;").2
    · rintro ⟨w, hw, hcw⟩
      have := hasDangerKeyword_of_whole_word hw hcw
      rw [show hasDangerKeyword ("SELECT * FROM employees;".toList.map Char.toUpper) = false
        from by decide] at this
      cases this
    · decide
    · decide
    · decide

/-! ## C9 — the rule-based fallback is always safe and read-only -/

/-- The rule-based translator can only ever answer one of thirteen fixed
queries: the seven templates, with the department template instantiated at
one of the five vocabulary entries or replaced by the distinct-values
listing. -/
theorem rule_based_sql_mem (q : String) :
    rule_based_sql q ∈
      (["SELECT department, COUNT(*) as employee_count FROM employees GROUP BY department;",
        "SELECT department, AVG(salary) as avg_salary FROM employees GROUP BY department;",
        "SELECT AVG(salary) as average_salary FROM employees;",
        "SELECT * FROM employees ORDER BY salary DESC LIMIT 5;",
        "SELECT * FROM employees ORDER BY salary ASC LIMIT 5;",
        "SELECT * FROM employees WHERE department = 'It';",
        "SELECT * FROM employees WHERE department = 'Marketing';",
        "SELECT * FROM employees WHERE department = 'Sales';",
        "SELECT * FROM employees WHERE department = 'Finance';",
        "SELECT * FROM employees WHERE department = 'Hr';",
        "SELECT DISTINCT department FROM employees;",
        "SELECT DISTINCT residence_city FROM employees LIMIT 10;",
        "SELECT * FROM employees LIMIT 10;"] : List String) := by
  simp only [rule_based_sql]
  repeat' split
  all_goals
    first
    | decide
    | (rename_i hne2
       have hmem := extract_department_mem (q.toList.map Char.toLower)
       simp only [List.mem_cons, List.not_mem_nil, or_false] at hmem
       rcases hmem with h|h|h|h|h|h <;>
         first
         | exact absurd h hne2
         | (rw [h]; decide))

/-- C9: whatever the request, the fallback query begins with SELECT, ends
with its sole statement terminator, passes the safety validator, and is
classified read-mode by `execute_query`, which then opens no write
transaction — the fallback path can neither trip the denylist nor write. -/
theorem rule_fallback_safe (q : String) :
    "SELECT".toList.isPrefixOf (rule_based_sql q).toList = true ∧
    (rule_based_sql q).toList.getLast? = some ';' ∧
    (rule_based_sql q).toList.count ';' = 1 ∧
    validate_sql_safety true (rule_based_sql q) = (true, "Query is safe") ∧
    firstWordLower (rule_based_sql q) ∈ row_returning_first_words ∧
    ∀ (σ ρ : Type) (st : Store σ ρ) (s : σ),
      (execute_query st s (rule_based_sql q)).opened_write_transaction = false := by
  have hm := rule_based_sql_mem q
  simp only [List.mem_cons, List.not_mem_nil, or_false] at hm
  rcases hm with h|h|h|h|h|h|h|h|h|h|h|h|h <;>
    (rw [h]
     refine ⟨by decide, by decide, by decide, by decide, by decide, ?_⟩
     intro σ ρ st s
     rw [execute_query_read_case st s _ (by decide)]
     cases st.read _ s <;> rfl)

/-- Closed instance of `rule_fallback_safe` at a request hitting the default
template. -/
theorem rule_fallback_safe_witness :
    validate_sql_safety true (rule_based_sql "hello") = (true, "Query is safe") ∧
    (execute_query demoStore 0 (rule_based_sql "hello")).opened_write_transaction = false :=
  ⟨(rule_fallback_safe "hello").2.2.2.1,
   (rule_fallback_safe "hello").2.2.2.2.2 Nat Nat demoStore 0⟩

/-- Closed instance of `refresh_publishes_prefix_states` on the one-table
catalog. -/
theorem refresh_publishes_prefix_states_witness :
    (refreshSchemaStates ["employees"] employeesInfo).head? = some [] ∧
    (refreshSchemaStates ["employees"] employeesInfo).getLast? =
      some (buildSchema ["employees"] employeesInfo) :=
  ⟨(refresh_publishes_prefix_states ["employees"] employeesInfo).1,
   (refresh_publishes_prefix_states ["employees"] employeesInfo).2.1⟩

end QueryCraft
